import Mathlib

/-!
Verification of the gofile-dl download engine (src/run.py, src/errors.py).

The Python source is shallowly embedded: pure string manipulation becomes
Lean functions on String / List Char, the stateful download and traversal
code becomes explicit state passing over executable state records, and the
observable callback traffic (progress callbacks, HTTP requests issued,
transfer invocations) is recorded as event lists.  Machine-level concerns
(actual sockets, clocks, the pause busy-wait and the throttling sleeps,
which only affect timing) are noted where they are abstracted.
-/

namespace GofileDl

/-! ### Python string helpers -/

/-- Python whitespace (str.strip, str.split, and the regex class used by
run.py all treat the usual whitespace characters alike). -/
def isWs (c : Char) : Bool := c.isWhitespace

/-- str.strip(): drop leading and trailing whitespace. -/
def stripChars (cs : List Char) : List Char :=
  ((cs.dropWhile isWs).reverse.dropWhile isWs).reverse

/-- str.strip() on a String. -/
def pyStrip (s : String) : String := ⟨stripChars s.toList⟩

/-- Case-insensitive literal match (regex IGNORECASE): consume the literal
from the front of the input, returning the remainder on success. -/
def matchLitCI : List Char → List Char → Option (List Char)
  | [], cs => some cs
  | _ :: _, [] => none
  | l :: ls, c :: cs => if l.toLower = c.toLower then matchLitCI ls cs else none

/-- Greedy regex fragment \s+ : require at least one whitespace character,
then consume the maximal whitespace run. -/
def matchWsPlus : List Char → Option (List Char)
  | c :: rest => if isWs c then some (rest.dropWhile isWs) else none
  | [] => none

/-! ### normalize_folder_name (run.py lines 54-92)

The five default prefix patterns are applied in order, each as an anchored
re.sub that removes the matched prefix when it matches.  The
custom_patterns branch (lines 76-86) is not exercised by any claim and is
not modelled: every call below uses the default pattern list
(custom_patterns = None). -/

def newFilesInLit : List Char := "NEW FILES in".toList

/-- Anchored pattern 1: a star emoji, optional whitespace, the literal
"NEW FILES in" (case-insensitively), then mandatory whitespace. -/
def patStarNewFiles (cs : List Char) : Option (List Char) :=
  match cs with
  | '⭐' :: rest => (matchLitCI newFilesInLit (rest.dropWhile isWs)).bind matchWsPlus
  | _ => none

/-- Anchored pattern 2: the literal "NEW FILES in" then mandatory whitespace. -/
def patNewFiles (cs : List Char) : Option (List Char) :=
  (matchLitCI newFilesInLit cs).bind matchWsPlus

/-- Anchored pattern 3: a star emoji then optional whitespace. -/
def patStar (cs : List Char) : Option (List Char) :=
  match cs with
  | '⭐' :: rest => some (rest.dropWhile isWs)
  | _ => none

/-- Anchored pattern 4: one or more asterisks, optional whitespace, the
literal "NEW FILES in", then mandatory whitespace. -/
def patAstsNewFiles (cs : List Char) : Option (List Char) :=
  match cs with
  | '*' :: rest =>
      (matchLitCI newFilesInLit ((rest.dropWhile (fun c => c = '*')).dropWhile isWs)).bind matchWsPlus
  | _ => none

/-- Anchored pattern 5: one or more asterisks then optional whitespace. -/
def patAsts (cs : List Char) : Option (List Char) :=
  match cs with
  | '*' :: rest => some ((rest.dropWhile (fun c => c = '*')).dropWhile isWs)
  | _ => none

/-- re.sub with a start-anchored pattern and empty replacement: if the
pattern matches a prefix, drop it, otherwise leave the string unchanged. -/
def subAnchor (pat : List Char → Option (List Char)) (cs : List Char) : List Char :=
  match pat cs with
  | some rest => rest
  | none => cs

/-- normalize_folder_name with the default pattern list (run.py 54-92):
apply the five anchored patterns in order to the running result, then
strip surrounding whitespace. -/
def normalize_folder_name (name : String) : String :=
  let r := name.toList
  let r := subAnchor patStarNewFiles r
  let r := subAnchor patNewFiles r
  let r := subAnchor patStar r
  let r := subAnchor patAstsNewFiles r
  let r := subAnchor patAsts r
  ⟨stripChars r⟩

/-! ### sanitize_filename (external dependency)

Modelled from the external pathvalidate library used by run.py: its
default sanitize_filename removes the characters that are invalid in
filenames across platforms (ASCII control characters and the characters
backslash, slash, colon, asterisk, question mark, double quote, angle
brackets, and pipe).  Reserved-name and length handling are not modelled;
no name appearing in this development triggers them. -/
def sanitize_filename (s : String) : String :=
  ⟨s.toList.filter (fun c =>
    ¬(c.toNat < 32 ∨ c ∈ ['\\', '/', ':', '*', '?', '"', '<', '>', '|']))⟩

/-! ### DownloadTracker key bookkeeping (run.py lines 144-168)

The downloaded_files set is modelled as a duplicate-free list of the
composite key strings.  Loading and saving the tracking file (lines
118-142) are I/O around this set and do not change its membership
semantics. -/

/-- The composite key built at run.py lines 155 and 166. -/
def trackerKey (file_id file_name : String) : String := file_id ++ ":" ++ file_name

/-- DownloadTracker.is_downloaded (lines 144-156). -/
def is_downloaded (downloaded_files : List String) (file_id file_name : String) : Bool :=
  downloaded_files.contains (trackerKey file_id file_name)

/-- DownloadTracker.mark_downloaded (lines 158-168): set insertion
(the write-through save only persists the set). -/
def mark_downloaded (downloaded_files : List String) (file_id file_name : String) :
    List String :=
  if downloaded_files.contains (trackerKey file_id file_name) then downloaded_files
  else trackerKey file_id file_name :: downloaded_files

/-! ### DownloadTracker.find_existing_folder (run.py lines 170-201)

The filesystem is modelled as the list of existing directory paths, each
path the list of its components; os.path.join appends a component.  Every
modelled filesystem entry is a directory, so the os.path.isdir checks of
the source are satisfied by membership. -/

/-- os.listdir restricted to the modelled directory set: the immediate
children of parent. -/
def listdir (fs : List (List String)) (parent : List String) : List String :=
  fs.filterMap (fun q =>
    if q.dropLast = parent ∧ q.length = parent.length + 1 then q.getLast? else none)

/-- DownloadTracker.find_existing_folder (lines 170-201) with the default
folder pattern: exact sanitized-name match first, then the first directory
entry whose normalized name equals the normalized target. -/
def find_existing_folder (fs : List (List String)) (folder_name : String)
    (parent_dir : List String) : Option (List String) :=
  if ¬fs.contains parent_dir then none
  else
    let normalized_target := normalize_folder_name folder_name
    let exact_path := parent_dir ++ [sanitize_filename folder_name]
    if fs.contains exact_path then some exact_path
    else
      ((listdir fs parent_dir).find?
          (fun item => normalize_folder_name item = normalized_target)).map
        (fun item => parent_dir ++ [item])

/-! ### GoFile.download (run.py lines 548-665)

The per-file chunked download with resume, retry and cancellation.  The
filesystem view is the content of the .part staging file and of the final
file, each an optional byte list.  The server's behavior on the i-th
attempt is an Att record: the outcome of raise_for_status, the optional
Content-Length header, and the streamed chunks.  Callback invocations and
issued HTTP requests are recorded as events.  The pause busy-wait (lines
607-609) and the throttling bookkeeping (lines 622-639) only affect
timing, never state or events, and are not modelled. -/

/-- Exceptions that one download attempt can raise: an HTTP error status
from raise_for_status, the ZeroDivisionError from the percentage
computation, and the explicit Exception("Cancelled") at line 620. -/
inductive DErr where
  | http
  | divZero
  | cancelled
deriving DecidableEq

/-- Observable events of GoFile.download: the HTTP request with its Range
offset, the progress_callback percentage, and the file_progress_callback
invocations (percent -1 encodes the retry state of line 657, percent -2
the permanent failure of line 664; the retry_info string is not kept). -/
inductive DEv where
  | request (rangeOffset : Nat)
  | prog (percent : Nat)
  | fileProg (percent : Int) (size : Option Nat)
deriving DecidableEq

/-- Server behavior for one attempt of the retry loop. -/
structure Att where
  httpOk : Bool
  contentLength : Option Nat
  chunks : List (List Nat)
deriving DecidableEq

/-- The arguments of GoFile.download that influence modelled state:
presence of the two callbacks, the cancellation schedule (the poll index
from which cancel_event.is_set() returns true; cooperative cancellation
is monotone), and retry_attempts.  chunk_size and retry_delay only shape
chunk boundaries and timing. -/
structure DlCfg where
  hasProg : Bool
  hasFileCb : Bool
  cancelFrom : Option Nat
  retry_attempts : Nat

/-- cancel_event.is_set() at the given poll index. -/
def cancelSet (cancelFrom : Option Nat) (poll : Nat) : Bool :=
  match cancelFrom with
  | some k => k ≤ poll
  | none => false

/-- Download-side state: the .part file, the final file, the number of
cancellation polls so far, and the emitted events. -/
structure DlSt where
  part : Option (List Nat)
  finalFile : Option (List Nat)
  polls : Nat
  events : List DEv
deriving DecidableEq

/-- Append one observable event. -/
def demit (st : DlSt) (e : DEv) : DlSt := { st with events := st.events ++ [e] }

/-- The body of the chunk loop for one chunk (lines 605-620): append the
chunk to the .part file, fire the two progress callbacks with
int(downloaded * 100 / total_size) — a ZeroDivisionError when total_size
is 0 — and poll the cancel event.  Returns the state reached, the updated
downloaded counter, and the exception if one was raised. -/
def chunkStep (cfg : DlCfg) (total : Nat) (c : List Nat) (downloaded : Nat)
    (st : DlSt) : DlSt × Nat × Option DErr :=
  let st1 : DlSt := { st with part := some ((st.part.getD []) ++ c) }
  let d := downloaded + c.length
  if cfg.hasProg ∧ total = 0 then (st1, d, some .divZero)
  else
    let st2 := if cfg.hasProg then demit st1 (.prog (d * 100 / total)) else st1
    if cfg.hasFileCb ∧ total = 0 then (st2, d, some .divZero)
    else
      let st3 :=
        if cfg.hasFileCb then
          demit st2 (.fileProg (Int.ofNat (d * 100 / total)) (some total))
        else st2
      let st4 : DlSt := { st3 with polls := st3.polls + 1 }
      if cancelSet cfg.cancelFrom st3.polls then (st4, d, some .cancelled)
      else (st4, d, none)

/-- The chunk loop of one attempt (lines 605-639): run chunkStep on each
chunk, stopping at the first exception. -/
def writeChunks (cfg : DlCfg) (total : Nat) :
    List (List Nat) → Nat → DlSt → DlSt × Option DErr
  | [], _, st => (st, none)
  | c :: rest, downloaded, st =>
      match chunkStep cfg total c downloaded st with
      | (st, _, some e) => (st, some e)
      | (st, d, none) => writeChunks cfg total rest d st

/-- Lines 597-604 after a successful raise_for_status: compute total_size
from the Content-Length header plus the resumed offset, register the file
with its size (line 602), and open the .part file in append mode (which
creates it when absent).  Returns the state and total_size. -/
def attemptOpen (cfg : DlCfg) (att : Att) (size : Nat) (st : DlSt) : DlSt × Nat :=
  let total := att.contentLength.getD 0 + size
  let st := if cfg.hasFileCb then demit st (.fileProg 0 (some total)) else st
  ({ st with part := some (st.part.getD []) }, total)

/-- Lines 641-648: os.rename the .part file onto the final name and
report the final 100%. -/
def attemptFinish (cfg : DlCfg) (total : Nat) (st : DlSt) : DlSt × Option DErr :=
  let st : DlSt := { st with finalFile := some (st.part.getD []), part := none }
  let st := if cfg.hasFileCb then demit st (.fileProg 100 (some total)) else st
  (st, none)

/-- One iteration of the retry loop body (lines 586-648): read the current
.part size, issue the ranged request, stream the chunks, and on a complete
pass rename .part to the final file and report 100.  The os.makedirs of
line 588 is modelled as succeeding. -/
def runAttempt (cfg : DlCfg) (att : Att) (st : DlSt) : DlSt × Option DErr :=
  let size := (st.part.map List.length).getD 0
  let st := demit st (.request size)
  if ¬att.httpOk then (st, some .http)
  else
    let opened := attemptOpen cfg att size st
    match writeChunks cfg opened.2 att.chunks size opened.1 with
    | (st, some e) => (st, some e)
    | (st, none) => attemptFinish cfg opened.2 st

/-- Result of the whole retry loop. -/
inductive DlOutcome where
  | success
  | permanentFailure (lastErr : DErr)
deriving DecidableEq

/-- The while-loop of lines 585-665.  attemptsMade indexes the server
behavior; remaining is the part of the retry budget still unused, so the
loop runs at most retry_attempts + 1 attempts.  On a failed attempt with
budget left, the retry state (-1) is signalled and the loop re-enters
(re-reading the .part size, hence resuming); once the budget is exhausted
the .part file is removed and the permanent failure (-2) is signalled. -/
def downloadLoop (cfg : DlCfg) (atts : Nat → Att) :
    Nat → Nat → DlSt → DlSt × DlOutcome
  | attemptsMade, remaining, st =>
      match runAttempt cfg (atts attemptsMade) st with
      | (st, none) => (st, .success)
      | (st, some e) =>
          match remaining with
          | r + 1 =>
              let st := if cfg.hasFileCb then demit st (.fileProg (-1) none) else st
              downloadLoop cfg atts (attemptsMade + 1) r st
          | 0 =>
              let st : DlSt := { st with part := none }
              let st := if cfg.hasFileCb then demit st (.fileProg (-2) none) else st
              (st, .permanentFailure e)

/-- GoFile.download: run the retry loop from a fresh attempt counter. -/
def download (cfg : DlCfg) (atts : Nat → Att) (st : DlSt) : DlSt × DlOutcome :=
  downloadLoop cfg atts 0 cfg.retry_attempts st

/-- Initial download state: the .part file as left by earlier runs, no
final file, no polls, no events. -/
def dlInit (part : Option (List Nat)) : DlSt :=
  { part := part, finalFile := none, polls := 0, events := [] }

/-! ### strip_emojis_func (run.py lines 21-52) and os.path.splitext -/

/-- The character ranges of the emoji regex at run.py lines 32-48. -/
def inEmojiRange (c : Char) : Bool :=
  let n := c.toNat
  decide ((0x1F600 ≤ n ∧ n ≤ 0x1F64F) ∨ (0x1F300 ≤ n ∧ n ≤ 0x1F5FF) ∨
    (0x1F680 ≤ n ∧ n ≤ 0x1F6FF) ∨ (0x1F1E0 ≤ n ∧ n ≤ 0x1F1FF) ∨
    (0x2500 ≤ n ∧ n ≤ 0x2BEF) ∨ (0x2702 ≤ n ∧ n ≤ 0x27B0) ∨
    (0x24C2 ≤ n ∧ n ≤ 0x1F251) ∨ (0x1F900 ≤ n ∧ n ≤ 0x1F9FF) ∨
    (0x1FA00 ≤ n ∧ n ≤ 0x1FA6F) ∨ (0x1FA70 ≤ n ∧ n ≤ 0x1FAFF) ∨
    (0x2600 ≤ n ∧ n ≤ 0x26FF) ∨ (0x2700 ≤ n ∧ n ≤ 0x27BF))

/-- str.split() with no separator: split on whitespace runs, dropping
empty pieces. -/
def wsSplit : List Char → List (List Char)
  | [] => []
  | c :: rest =>
      if isWs c then wsSplit rest
      else (c :: rest.takeWhile (fun d => !isWs d)) ::
        wsSplit (rest.dropWhile (fun d => !isWs d))
termination_by cs => cs.length
decreasing_by
  all_goals simp
  all_goals
    (have h : (rest.dropWhile (fun d => !isWs d)).length ≤ rest.length :=
      (List.dropWhile_sublist _).length_le
     omega)

/-- ' '.join applied to the words of str.split(). -/
def joinSpace : List (List Char) → List Char
  | [] => []
  | [w] => w
  | w :: ws => w ++ ' ' :: joinSpace ws

/-- strip_emojis_func (lines 21-52): remove characters in the emoji
ranges, collapse whitespace runs to single spaces, strip the ends. -/
def strip_emojis_func (s : String) : String :=
  ⟨stripChars (joinSpace (wsSplit (s.toList.filter (fun c => ¬inEmojiRange c))))⟩

/-- The extension component of os.path.splitext: the suffix starting at
the last dot, except that dots leading the basename never begin an
extension.  The names fed to it here contain no path separators. -/
def splitextExt (s : String) : String :=
  let cs := s.toList
  let lead := (cs.takeWhile (fun c => c = '.')).length
  let rest := cs.drop lead
  let tail := rest.reverse.takeWhile (fun c => ¬c = '.')
  if tail.length = rest.length then "" else ⟨'.' :: tail.reverse⟩

/-! ### GoFile.execute (run.py lines 280-546)

The content tree as served by the API.  A fetch response is (fetchOk,
statusOk, passwordStatus, node): fetchOk models the try/except around the
HTTP request (lines 337-350), statusOk the "status" == "ok" check (line
351), passwordStatus the field of line 354.  A folder node carries both
the children and the contents mappings (lines 393-396).  A folder child
entry embeds the fetch response that its recursive execute call will
receive; a file child entry carries the optional name and link fields
(lines 446 and 468, read with dict .get defaults). -/

mutual
inductive RNode where
  | file (name link : String)
  | folder (name : String) (children contents : List (String × RChild))
inductive RChild where
  | cfile (name link : Option String)
  | cfolder (fetchOk statusOk : Bool) (passwordStatus : Option String) (node : RNode)
end

/-- Observable events of GoFile.execute: the name callback, the per-file
progress callback, the overall progress callback (percent and folder
label), and invocations of the transfer path self.download (line 480,
533), recorded with the link and destination path. -/
inductive XEv where
  | nameEv (s : String)
  | fileProg (path : List String) (percent : Int)
  | overall (percent : Nat) (label : String)
  | transfer (link : String) (path : List String)
deriving DecidableEq

/-- The exceptions run.py can raise out of one execute frame, plus the
PasswordError class that errors.py defines (run.py never raises it). -/
inductive PyErr where
  | permissionError
  | passwordError
deriving DecidableEq

/-- How one execute frame ended: normal completion, the early returns of
lines 348-350 (request failed), 351-353 (API error) and 354-356 (invalid
password), or a raised exception (directory creation, lines 382-391). -/
inductive ExecOutcome where
  | ok
  | fetchFailed
  | apiError
  | invalidPassword
  | raised (e : PyErr)
deriving DecidableEq

/-- The arguments of GoFile.execute that influence the modelled state:
callback presence, mode flags, the cancellation schedule, the tracking
data a fresh DownloadTracker would load (line 329), and which directory
paths os.makedirs fails on. -/
structure ExecCfg where
  incremental : Bool
  hasOverallCb : Bool
  hasFileCb : Bool
  hasNameCb : Bool
  strip_emojis : Bool
  cancelFrom : Option Nat
  loadedTracker : List String
  mkdirFail : List String → Bool

/-- Walker-side state: existing directories, the shared tracker set (none
until a DownloadTracker exists), cancellation polls performed, events. -/
structure ExecSt where
  fs : List (List String)
  tracker : Option (List String)
  polls : Nat
  events : List XEv
deriving DecidableEq

/-- Append one observable event. -/
def xemit (st : ExecSt) (e : XEv) : ExecSt := { st with events := st.events ++ [e] }

/-- The folder-name resolution of lines 358-366 (and its file-name twin at
lines 457-465 and 515-525): optional emoji stripping with a synthesized
fallback name when stripping empties the string. -/
def resolveName (stripFlag : Bool) (kind : String) (cid : String) (ext : String)
    (name : String) : String :=
  if stripFlag then
    let cleaned := strip_emojis_func name
    if cleaned = "" then kind ++ "_" ++ (cid.take 8) ++ ext else cleaned
  else name

/-- Lines 327-329: a fresh DownloadTracker is constructed (loading its
persisted set) when incremental mode has no tracker yet. -/
def trackerInit (cfg : ExecCfg) (st : ExecSt) : ExecSt :=
  if cfg.incremental ∧ st.tracker.isNone then
    { st with tracker := some cfg.loadedTracker }
  else st

/-- Lines 357-380: resolve the folder's display name (emoji stripping with
the synthesized fallback), fire the name callback, and pick the target
directory, reusing a renamed existing folder in incremental mode.
Returns the updated state and the folder path. -/
def folderPreamble (cfg : ExecCfg) (dirP : List String) (cid : String)
    (name : String) (st : ExecSt) : ExecSt × List String :=
  let dirname := resolveName cfg.strip_emojis "folder" cid "" name
  let st := if cfg.hasNameCb then xemit st (.nameEv (sanitize_filename dirname)) else st
  let folder_path :=
    if cfg.incremental ∧ st.tracker.isSome then
      match find_existing_folder st.fs dirname dirP with
      | some p => p
      | none => dirP ++ [sanitize_filename dirname]
    else dirP ++ [sanitize_filename dirname]
  (st, folder_path)

/-- Lines 382-391: os.makedirs with exist_ok, raising on failure (none). -/
def mkdirStep (cfg : ExecCfg) (folder_path : List String) (st : ExecSt) :
    Option ExecSt :=
  if cfg.mkdirFail folder_path then none
  else some { st with fs := if st.fs.contains folder_path then st.fs
                            else folder_path :: st.fs }

/-- Lines 510-513 (and the identical empty-folder exit of lines 398-404):
the final overall-progress invocation at 100 for this folder. -/
def finishFolder (cfg : ExecCfg) (name : String) (r : ExecSt × List Nat × Nat) :
    ExecSt × List Nat × ExecOutcome :=
  if cfg.hasOverallCb then (xemit r.1 (.overall 100 name), r.2.1 ++ [100], .ok)
  else (r.1, r.2.1, .ok)

/-- Lines 514-535: a content id that resolves to a single file node. -/
def execFileNode (cfg : ExecCfg) (dirP : List String) (cid : String)
    (name link : String) (st : ExecSt) : ExecSt × List Nat × ExecOutcome :=
  let filename := resolveName cfg.strip_emojis "file" cid (splitextExt name) name
  let path := dirP ++ [sanitize_filename filename]
  let st := if cfg.hasNameCb then xemit st (.nameEv (sanitize_filename filename)) else st
  let st := if cfg.hasFileCb then xemit st (.fileProg path 0) else st
  let st := xemit st (.transfer link path)
  let st := if cfg.hasFileCb then xemit st (.fileProg path 100) else st
  (st, [], .ok)

/-- Line 411: one cancel_event.is_set() poll; returns the observed value
and the advanced poll counter. -/
def pollCancel (cfg : ExecCfg) (st : ExecSt) : Bool × ExecSt :=
  (cancelSet cfg.cancelFrom st.polls, { st with polls := st.polls + 1 })

/-- The file-child part of the loop body (lines 444-497).  Returns the
state, the incremented files_completed, and whether control reached the
per-child progress update of lines 504-508 (false on the continue paths:
the incremental skip of lines 449-455 — which checks the name before
emoji stripping, counts the file completed, and reports 100% file
progress without any transfer — and the missing link of lines 470-473).
The download call of lines 480-488 is recorded as a transfer event; the
download itself is modelled separately (GoFile.download above) and, as in
the source, returns without raising. -/
def processFileChild (cfg : ExecCfg) (folder_path : List String) (child_id : String)
    (name? link? : Option String) (completed : Nat) (st : ExecSt) :
    ExecSt × Nat × Bool :=
  let filename := name?.getD "unknown"
  let tracked :=
    match st.tracker with
    | some t => is_downloaded t child_id filename
    | none => false
  if cfg.incremental && tracked then
    let st := if cfg.hasFileCb then
        xemit st (.fileProg (folder_path ++ [sanitize_filename filename]) 100)
      else st
    (st, completed + 1, false)
  else
    let filename := resolveName cfg.strip_emojis "file" child_id
      (splitextExt filename) filename
    let path := folder_path ++ [sanitize_filename filename]
    match link? with
    | none => (st, completed + 1, false)
    | some link =>
        let st := if cfg.hasFileCb then xemit st (.fileProg path 0) else st
        let st := xemit st (.transfer link path)
        let marked := st.tracker.map (fun t => mark_downloaded t child_id filename)
        let st : ExecSt :=
          if cfg.incremental ∧ st.tracker.isSome then { st with tracker := marked }
          else st
        let st := if cfg.hasFileCb then xemit st (.fileProg path 100) else st
        (st, completed + 1, true)

/-- Whether processing a folder child falls into the except branch of
lines 499-502 (only a raised exception does; the early returns of a
recursive execute are normal returns there). -/
def continuesToUpdate : ExecOutcome → Bool
  | .raised _ => false
  | _ => true

mutual
/-- One GoFile.execute call on a fetched response (run.py lines 323-535,
content-id branch; the URL branch of lines 536-546 only re-enters this one
after extracting the trailing path segment).  Returns the state, the
percent values this frame itself passed to the overall-progress callback
(a sub-list of the recorded overall events, distinguishing this frame from
recursive frames that share the callback), and how the frame ended.
update_token and update_wt (lines 324-325) touch only the session tokens
and the network.  The children mapping falls back to the contents mapping
when empty (lines 393-396). -/
def execResp (cfg : ExecCfg) (dirP : List String) (cid : String)
    (fetchOk statusOk : Bool) (pwd : Option String) (node : RNode) (st : ExecSt) :
    ExecSt × List Nat × ExecOutcome :=
  let st := trackerInit cfg st
  if ¬fetchOk then (st, [], .fetchFailed)
  else if ¬statusOk then (st, [], .apiError)
  else if ¬(pwd.getD "passwordOk" = "passwordOk") then (st, [], .invalidPassword)
  else
    match node with
    | .folder name children contents =>
        let pre := folderPreamble cfg dirP cid name st
        match mkdirStep cfg pre.2 pre.1 with
        | none => (pre.1, [], .raised .permissionError)
        | some st =>
            match children with
            | [] =>
                match contents with
                | [] => finishFolder cfg name (st, [], 0)
                | k :: ks =>
                    finishFolder cfg name
                      (execChildren cfg pre.2 name (k :: ks).length (k :: ks) 0 st)
            | k :: ks =>
                finishFolder cfg name
                  (execChildren cfg pre.2 name (k :: ks).length (k :: ks) 0 st)
    | .file name link => execFileNode cfg dirP cid name link st

/-- The child loop of lines 410-508: poll the cancel event, process the
child, and — only when the child did not take one of the continue paths —
report int(files_completed / overall_total * 100) to the overall-progress
callback.  Returns the state, this frame's overall percents, and the final
files_completed. -/
def execChildren (cfg : ExecCfg) (folder_path : List String) (label : String)
    (total : Nat) (kids : List (String × RChild)) (completed : Nat) (st : ExecSt) :
    ExecSt × List Nat × Nat :=
  match kids with
  | [] => (st, [], completed)
  | (child_id, child) :: rest =>
      let pc := pollCancel cfg st
      if pc.1 then (pc.2, [], completed)
      else
        let p := processChild cfg folder_path child_id child completed pc.2
        if p.2.2 ∧ cfg.hasOverallCb ∧ 0 < total then
          let percent := p.2.1 * 100 / total
          let r := execChildren cfg folder_path label total rest p.2.1
            (xemit p.1 (.overall percent label))
          (r.1, percent :: r.2.1, r.2.2)
        else
          execChildren cfg folder_path label total rest p.2.1 p.1

/-- The body of the child loop (lines 414-502): recurse on a folder child
(suppressing the name callback, line 430), delegate a file child to
processFileChild.  A folder child always counts completed; it reaches the
per-child update unless its recursive call raised (except branch, lines
499-502). -/
def processChild (cfg : ExecCfg) (folder_path : List String) (child_id : String)
    (child : RChild) (completed : Nat) (st : ExecSt) : ExecSt × Nat × Bool :=
  match child with
  | .cfolder fetchOk statusOk pwd sub =>
      let r := execResp { cfg with hasNameCb := false } folder_path child_id
        fetchOk statusOk pwd sub st
      (r.1, completed + 1, continuesToUpdate r.2.2)
  | .cfile name? link? =>
      processFileChild cfg folder_path child_id name? link? completed st
end

/-- Whether a child entry is a file entry. -/
def isCfile : RChild → Bool
  | .cfile _ _ => true
  | _ => false

/-- The tracker key that the incremental skip check of line 449 reads for
a file child (the name before emoji stripping, exactly as the source). -/
def fileKey (child_id : String) : RChild → Option String
  | .cfile name? _ => some (trackerKey child_id (name?.getD "unknown"))
  | _ => none

/-- Which children reach the per-child overall-progress update, judged
against the initially loaded tracker: folder children always do (their
recursive call only raises on directory-creation failure), file children
do unless skipped by the incremental check or missing their link. -/
def normalChild (incr : Bool) (tracker0 : List String) (p : String × RChild) : Bool :=
  match p.2 with
  | .cfolder _ _ _ _ => true
  | .cfile name? link? =>
      if incr ∧ is_downloaded tracker0 p.1 (name?.getD "unknown") then false
      else link?.isSome

/-! ## Theorems about the claims -/

/-! ### Helper lemmas for GoFile.download -/

/-- head? of an append is the left head? when the left part is nonempty. -/
theorem head?_append_left {α : Type} (l₁ l₂ : List α) (h : l₁ ≠ []) :
    (l₁ ++ l₂).head? = l₁.head? := by
  cases l₁ with
  | nil => exact absurd rfl h
  | cons a l => simp

/-- chunkStep only appends progress events: it never adds a request event,
appends the chunk to the .part file, never touches the final file, and
preserves the head of a nonempty event list. -/
theorem chunkStep_spec (cfg : DlCfg) (total : Nat) (c : List Nat) (d : Nat)
    (st : DlSt) :
    (∀ off, DEv.request off ∈ (chunkStep cfg total c d st).1.events →
        DEv.request off ∈ st.events)
    ∧ (chunkStep cfg total c d st).1.part = some ((st.part.getD []) ++ c)
    ∧ (chunkStep cfg total c d st).1.finalFile = st.finalFile
    ∧ (st.events ≠ [] →
        (chunkStep cfg total c d st).1.events.head? = st.events.head?
        ∧ (chunkStep cfg total c d st).1.events ≠ []) := by
  unfold chunkStep
  simp only [demit]
  split_ifs <;>
    exact ⟨by simp [List.append_assoc], rfl, rfl, fun hne =>
      ⟨by simp [List.append_assoc, head?_append_left _ _ hne],
       by simp [hne]⟩⟩

/-- The chunk loop never adds a request event, only appends to the .part
file, never touches the final file, and preserves the head of a nonempty
event list. -/
theorem writeChunks_spec (cfg : DlCfg) (total : Nat) :
    ∀ (chunks : List (List Nat)) (d : Nat) (st : DlSt),
      (∀ off, DEv.request off ∈ (writeChunks cfg total chunks d st).1.events →
          DEv.request off ∈ st.events)
      ∧ (∀ p, st.part = some p →
          ∃ suf, (writeChunks cfg total chunks d st).1.part = some (p ++ suf))
      ∧ (writeChunks cfg total chunks d st).1.finalFile = st.finalFile
      ∧ (st.events ≠ [] →
          (writeChunks cfg total chunks d st).1.events.head? = st.events.head?
          ∧ (writeChunks cfg total chunks d st).1.events ≠ []) := by
  intro chunks
  induction chunks with
  | nil =>
      intro d st
      refine ⟨fun off h => ?_, fun p hp => ⟨[], ?_⟩, rfl, fun hne => ⟨rfl, hne⟩⟩
      · simpa [writeChunks] using h
      · simp [writeChunks, hp]
  | cons c rest ih =>
      intro d st
      obtain ⟨csReq, csPart, csFinal, csHead⟩ := chunkStep_spec cfg total c d st
      unfold writeChunks
      rcases hcs : chunkStep cfg total c d st with ⟨st1, d1, e⟩
      rw [hcs] at csReq csPart csFinal csHead
      cases e with
      | some err =>
          refine ⟨csReq, fun p hp => ⟨c, ?_⟩, csFinal, csHead⟩
          rw [csPart, hp]
          rfl
      | none =>
          obtain ⟨ihReq, ihPart, ihFinal, ihHead⟩ := ih d1 st1
          refine ⟨fun off h => csReq off (ihReq off h), fun p hp => ?_, ?_, fun hne => ?_⟩
          · obtain ⟨suf, hsuf⟩ := ihPart (p ++ c) (by rw [csPart, hp]; rfl)
            exact ⟨c ++ suf, by rw [hsuf, List.append_assoc]⟩
          · rw [ihFinal, csFinal]
          · obtain ⟨h1, h2⟩ := csHead hne
            obtain ⟨h3, h4⟩ := ihHead h2
            exact ⟨h3.trans h1, h4⟩

/-- demit changes only the event list, by appending. -/
theorem demit_fields (st : DlSt) (e : DEv) :
    (demit st e).part = st.part ∧ (demit st e).finalFile = st.finalFile
    ∧ (demit st e).events = st.events ++ [e] :=
  ⟨rfl, rfl, rfl⟩

/-- attemptOpen reopens the .part file in append mode (creating it when
absent), touches neither the final file nor any request event, and
preserves a nonempty event list and its head. -/
theorem attemptOpen_spec (cfg : DlCfg) (att : Att) (size : Nat) (st : DlSt) :
    (attemptOpen cfg att size st).1.part = some (st.part.getD [])
    ∧ (attemptOpen cfg att size st).1.finalFile = st.finalFile
    ∧ (∀ off, DEv.request off ∈ (attemptOpen cfg att size st).1.events →
        DEv.request off ∈ st.events)
    ∧ (st.events ≠ [] →
        (attemptOpen cfg att size st).1.events.head? = st.events.head?
        ∧ (attemptOpen cfg att size st).1.events ≠ []) := by
  unfold attemptOpen
  simp only [demit]
  split_ifs <;>
    exact ⟨by simp, by simp, by simp, fun hne =>
      ⟨by simp [head?_append_left _ _ hne], by simp [hne]⟩⟩

/-- attemptFinish renames the .part bytes onto the final file, succeeds,
adds no request event, and preserves a nonempty event list and its head. -/
theorem attemptFinish_spec (cfg : DlCfg) (total : Nat) (st : DlSt) :
    (attemptFinish cfg total st).2 = none
    ∧ (attemptFinish cfg total st).1.part = none
    ∧ (attemptFinish cfg total st).1.finalFile = some (st.part.getD [])
    ∧ (∀ off, DEv.request off ∈ (attemptFinish cfg total st).1.events →
        DEv.request off ∈ st.events)
    ∧ (st.events ≠ [] →
        (attemptFinish cfg total st).1.events.head? = st.events.head?
        ∧ (attemptFinish cfg total st).1.events ≠ []) := by
  unfold attemptFinish
  simp only [demit]
  split_ifs <;>
    exact ⟨by simp, by simp, by simp, by simp, fun hne =>
      ⟨by simp [head?_append_left _ _ hne], by simp [hne]⟩⟩

/-- One retry-loop iteration: the only request it issues carries exactly
the current .part size as Range offset; its event list stays nonempty and
begins with the old events followed by that request; a failed attempt
leaves the .part file unchanged or extended — never deleted — and does
not touch the final file; a successful attempt clears the .part file by
renaming it, making the final file an extension of the old .part bytes. -/
theorem runAttempt_spec (cfg : DlCfg) (att : Att) (st : DlSt) :
    (∀ off, DEv.request off ∈ (runAttempt cfg att st).1.events →
        DEv.request off ∈ st.events ∨ off = (st.part.map List.length).getD 0)
    ∧ ((runAttempt cfg att st).1.events.head?
        = (st.events ++ [DEv.request ((st.part.map List.length).getD 0)]).head?)
    ∧ ((runAttempt cfg att st).1.events ≠ [])
    ∧ (∀ e, (runAttempt cfg att st).2 = some e →
        ((runAttempt cfg att st).1.part = st.part
          ∨ ∃ suf, (runAttempt cfg att st).1.part = some ((st.part.getD []) ++ suf))
        ∧ (runAttempt cfg att st).1.finalFile = st.finalFile)
    ∧ ((runAttempt cfg att st).2 = none →
        (runAttempt cfg att st).1.part = none
        ∧ ∃ suf, (runAttempt cfg att st).1.finalFile = some ((st.part.getD []) ++ suf)) := by
  have hra : runAttempt cfg att st =
      (if ¬att.httpOk then
        (demit st (.request ((st.part.map List.length).getD 0)), some .http)
      else
        match writeChunks cfg
            (attemptOpen cfg att ((st.part.map List.length).getD 0)
              (demit st (.request ((st.part.map List.length).getD 0)))).2
            att.chunks ((st.part.map List.length).getD 0)
            (attemptOpen cfg att ((st.part.map List.length).getD 0)
              (demit st (.request ((st.part.map List.length).getD 0)))).1 with
        | (stw, some e) => (stw, some e)
        | (stw, none) =>
            attemptFinish cfg
              (attemptOpen cfg att ((st.part.map List.length).getD 0)
                (demit st (.request ((st.part.map List.length).getD 0)))).2 stw) := rfl
  rw [hra]
  by_cases hh : att.httpOk = true
  case neg =>
    rw [if_pos (by simpa using hh)]
    refine ⟨fun off h => by simpa [demit] using h, rfl, by simp [demit],
      fun e _ => ⟨Or.inl rfl, rfl⟩, fun h => by simp at h⟩
  case pos =>
    rw [if_neg (by simp [hh])]
    obtain ⟨oPart, oFinal, oReq, oHead⟩ := attemptOpen_spec cfg att
      ((st.part.map List.length).getD 0)
      (demit st (.request ((st.part.map List.length).getD 0)))
    obtain ⟨wcReq, wcPart, wcFinal, wcHead⟩ := writeChunks_spec cfg
      (attemptOpen cfg att ((st.part.map List.length).getD 0)
        (demit st (.request ((st.part.map List.length).getD 0)))).2
      att.chunks ((st.part.map List.length).getD 0)
      (attemptOpen cfg att ((st.part.map List.length).getD 0)
        (demit st (.request ((st.part.map List.length).getD 0)))).1
    have hone : (demit st (.request ((st.part.map List.length).getD 0))).events ≠ [] := by
      simp [demit]
    obtain ⟨oh1, oh2⟩ := oHead hone
    obtain ⟨wh1, wh2⟩ := wcHead oh2
    rcases hwc : writeChunks cfg
        (attemptOpen cfg att ((st.part.map List.length).getD 0)
          (demit st (.request ((st.part.map List.length).getD 0)))).2
        att.chunks ((st.part.map List.length).getD 0)
        (attemptOpen cfg att ((st.part.map List.length).getD 0)
          (demit st (.request ((st.part.map List.length).getD 0)))).1 with ⟨stw, e⟩
    rw [hwc] at wcReq wcPart wcFinal wh1 wh2
    cases e with
    | some err =>
        refine ⟨fun off h => ?_, ?_, wh2, fun e2 _ => ⟨?_, ?_⟩, fun h => by simp at h⟩
        · have := oReq off (wcReq off h)
          simpa [demit] using this
        · rw [wh1, oh1]
          simp [demit]
        · obtain ⟨suf, hsuf⟩ := wcPart (st.part.getD []) oPart
          exact Or.inr ⟨suf, hsuf⟩
        · rw [wcFinal, oFinal]
          exact (demit_fields st _).2.1
    | none =>
        obtain ⟨fOk, fPart, fFinal, fReq, fHead⟩ := attemptFinish_spec cfg
          (attemptOpen cfg att ((st.part.map List.length).getD 0)
            (demit st (.request ((st.part.map List.length).getD 0)))).2 stw
        obtain ⟨fh1, fh2⟩ := fHead wh2
        refine ⟨fun off h => ?_, ?_, fh2, fun e2 he2 => ?_, fun _ => ⟨fPart, ?_⟩⟩
        · have := oReq off (wcReq off (fReq off h))
          simpa [demit] using this
        · rw [fh1, wh1, oh1]
          simp [demit]
        · rw [fOk] at he2
          exact absurd he2 (by simp)
        · obtain ⟨suf, hsuf⟩ := wcPart (st.part.getD []) oPart
          rw [fFinal, hsuf]
          exact ⟨suf, by simp⟩

/-- The retry loop: a permanent failure always deletes the .part file;
the event list always begins with the first attempt's ranged request;
when the loop starts from a .part file extending content, every request
it ever issues carries an offset of at least content.length (bytes
[0, content.length) are never re-requested), and a successful outcome
leaves a final file extending content. -/
theorem downloadLoop_spec (cfg : DlCfg) (atts : Nat → Att) :
    ∀ (remaining attemptsMade : Nat) (st : DlSt),
      (∀ e, (downloadLoop cfg atts attemptsMade remaining st).2
              = .permanentFailure e →
          (downloadLoop cfg atts attemptsMade remaining st).1.part = none)
      ∧ ((downloadLoop cfg atts attemptsMade remaining st).1.events.head?
          = (st.events ++ [DEv.request ((st.part.map List.length).getD 0)]).head?)
      ∧ (∀ content suf0, st.part = some (content ++ suf0) →
          (∀ off, DEv.request off
                ∈ (downloadLoop cfg atts attemptsMade remaining st).1.events →
              DEv.request off ∈ st.events ∨ content.length ≤ off)
          ∧ ((downloadLoop cfg atts attemptsMade remaining st).2 = .success →
              ∃ suf, (downloadLoop cfg atts attemptsMade remaining st).1.finalFile
                = some (content ++ suf))) := by
  intro remaining
  induction remaining with
  | zero =>
      intro attemptsMade st
      unfold downloadLoop
      obtain ⟨raReq, raHead, raNe, raErr, raOk⟩ := runAttempt_spec cfg (atts attemptsMade) st
      rcases hra : runAttempt cfg (atts attemptsMade) st with ⟨st1, e⟩
      rw [hra] at raReq raHead raNe raErr raOk
      cases e with
      | none =>
          refine ⟨fun e h => by simp at h, raHead, fun content suf0 hpart => ⟨?_, fun _ => ?_⟩⟩
          · intro off h
            rcases raReq off h with h1 | h1
            · exact Or.inl h1
            · refine Or.inr ?_
              rw [h1, hpart]
              simp
          · obtain ⟨_, suf, hsuf⟩ := raOk rfl
            refine ⟨suf0 ++ suf, ?_⟩
            rw [hsuf, hpart]
            simp
      | some err =>
          by_cases hf : cfg.hasFileCb = true <;>
            simp only [hf, if_true, if_false, demit]
          all_goals
            refine ⟨fun e h => by simp, ?_, fun content suf0 hpart => ⟨?_, fun h => by simp at h⟩⟩
          · rw [head?_append_left _ _ raNe]
            exact raHead
          · intro off h
            rcases (by simpa using h : DEv.request off ∈ st1.events) |> raReq off with h1 | h1
            · exact Or.inl h1
            · refine Or.inr ?_
              rw [h1, hpart]
              simp
          · exact raHead
          · intro off h
            rcases raReq off h with h1 | h1
            · exact Or.inl h1
            · refine Or.inr ?_
              rw [h1, hpart]
              simp
  | succ r ih =>
      intro attemptsMade st
      unfold downloadLoop
      obtain ⟨raReq, raHead, raNe, raErr, raOk⟩ := runAttempt_spec cfg (atts attemptsMade) st
      rcases hra : runAttempt cfg (atts attemptsMade) st with ⟨st1, e⟩
      rw [hra] at raReq raHead raNe raErr raOk
      cases e with
      | none =>
          refine ⟨fun e h => by simp at h, raHead, fun content suf0 hpart => ⟨?_, fun _ => ?_⟩⟩
          · intro off h
            rcases raReq off h with h1 | h1
            · exact Or.inl h1
            · refine Or.inr ?_
              rw [h1, hpart]
              simp
          · obtain ⟨_, suf, hsuf⟩ := raOk rfl
            refine ⟨suf0 ++ suf, ?_⟩
            rw [hsuf, hpart]
            simp
      | some err =>
          have raPart : st1.part = st.part
              ∨ ∃ suf, st1.part = some (st.part.getD [] ++ suf) := (raErr err rfl).1
          have raNe2 : st1.events ≠ [] := raNe
          have raHead2 : st1.events.head?
              = (st.events ++ [DEv.request ((st.part.map List.length).getD 0)]).head? := raHead
          have raReq2 : ∀ off, DEv.request off ∈ st1.events →
              DEv.request off ∈ st.events ∨ off = (st.part.map List.length).getD 0 := raReq
          have hpart1 : ∀ content suf0, st.part = some (content ++ suf0) →
              ∃ s2, st1.part = some (content ++ s2) := by
            intro content suf0 hp
            rcases raPart with h1 | ⟨suf, hsuf⟩
            · exact ⟨suf0, h1.trans hp⟩
            · refine ⟨suf0 ++ suf, ?_⟩
              rw [hsuf, hp]
              simp
          set S : DlSt := if cfg.hasFileCb then demit st1 (DEv.fileProg (-1) none) else st1
            with hSdef
          have SpartEq : S.part = st1.part := by
            rw [hSdef]
            split <;> rfl
          have Sne : S.events ≠ [] := by
            rw [hSdef]
            split <;> simp [demit, raNe2]
          have Shead : S.events.head? = st1.events.head? := by
            rw [hSdef]
            split
            · simp [demit, head?_append_left _ _ raNe2]
            · rfl
          have SreqMem : ∀ off, DEv.request off ∈ S.events → DEv.request off ∈ st1.events := by
            rw [hSdef]
            split
            · intro off h
              simpa [demit] using h
            · exact fun off h => h
          obtain ⟨ihFail, ihHead, ihRest⟩ := ih (attemptsMade + 1) S
          refine ⟨ihFail, ?_, fun content suf0 hp => ⟨?_, ?_⟩⟩
          · exact ihHead.trans ((head?_append_left _ _ Sne).trans (Shead.trans raHead2))
          · obtain ⟨s2, hS1⟩ := hpart1 content suf0 hp
            have hSpart : S.part = some (content ++ s2) := SpartEq.trans hS1
            intro off hmem
            rcases (ihRest content s2 hSpart).1 off hmem with h1 | h1
            · rcases raReq2 off (SreqMem off h1) with h2 | h2
              · exact Or.inl h2
              · refine Or.inr ?_
                rw [h2, hp]
                simp
            · exact Or.inr h1
          · intro hs
            obtain ⟨s2, hS1⟩ := hpart1 content suf0 hp
            exact (ihRest content s2 (SpartEq.trans hS1)).2 hs

/-- Claim C8: DownloadTracker.find_existing_folder recognizes a target
folder named "NEW FILES in Foo" and an on-disk folder named "Foo" as the
same folder (their names agree after default prefix-pattern stripping by
normalize_folder_name), and does not match a target "Foo" against an
on-disk "Bar". -/
theorem find_existing_folder_rename_match :
    find_existing_folder [["base"], ["base", "Foo"]] "NEW FILES in Foo" ["base"]
        = some ["base", "Foo"]
    ∧ find_existing_folder [["base"], ["base", "Bar"]] "Foo" ["base"] = none := by
  decide

/-- Claim C10, counterexample: the composite key id + ":" + name is not
injective on pairs.  After marking ("a", "b:c") on a fresh tracker, the
distinct pair ("a:b", "c") is reported as already downloaded, so the
claimed "is_downloaded returns false for every pair distinct from the
marked one" fails. -/
theorem tracker_key_collision :
    is_downloaded (mark_downloaded [] "a" "b:c") "a:b" "c" = true
    ∧ (("a:b" : String), ("c" : String)) ≠ (("a" : String), ("b:c" : String)) := by
  decide

/-- Claim C10, amended: after mark_downloaded(fileId, fileName) on a fresh
tracker, is_downloaded(id2, name2) is true exactly when the composite
string id2 + ":" + name2 equals fileId + ":" + fileName; distinct pairs
whose composites collide (possible when an id contains a colon) count as
the same entry, every other pair is reported not downloaded. -/
theorem tracker_key_composite (id1 name1 id2 name2 : String) :
    is_downloaded (mark_downloaded [] id1 name1) id2 name2 = true ↔
      trackerKey id2 name2 = trackerKey id1 name1 := by
  simp [is_downloaded, mark_downloaded, List.contains]

/-- Claim C1, counterexample: a cancellation observed mid-transfer with
retry_attempts = 0.  One chunk has already been appended to the .part
file when the cancel poll fires; the raised exception lands in the
except branch with the budget exhausted, so run.py deletes the .part
file (lines 661-662) — it does not remain on disk as claimed. -/
theorem download_cancel_deletes_part_counterexample :
    (download
        { hasProg := true, hasFileCb := true, cancelFrom := some 0,
          retry_attempts := 0 }
        (fun _ => { httpOk := true, contentLength := some 100, chunks := [[1], [2]] })
        (dlInit none)).1.part = none
    ∧ (download
        { hasProg := true, hasFileCb := true, cancelFrom := some 0,
          retry_attempts := 0 }
        (fun _ => { httpOk := true, contentLength := some 100, chunks := [[1], [2]] })
        (dlInit none)).2 = .permanentFailure .cancelled := by
  decide

/-- Claim C1, amended: cancellation flows into the shared except/retry
path of run.py lines 650-665.  A failing attempt — cancellation included —
never deletes the .part file itself (it leaves it unchanged or extended,
so the next attempt can resume); but once the retry budget is exhausted,
whatever the final failure was, the .part file is deleted before the
permanent-failure signal.  In particular cancellation with
retry_attempts = 0 deletes the .part file. -/
theorem download_part_deletion_on_exhaustion (cfg : DlCfg) (atts : Nat → Att)
    (st : DlSt) :
    (∀ e, (download cfg atts st).2 = .permanentFailure e →
        (download cfg atts st).1.part = none)
    ∧ (∀ att e, (runAttempt cfg att st).2 = some e →
        (runAttempt cfg att st).1.part = st.part
        ∨ ∃ suf, (runAttempt cfg att st).1.part = some ((st.part.getD []) ++ suf)) :=
  ⟨fun e h => (downloadLoop_spec cfg atts cfg.retry_attempts 0 st).1 e h,
   fun att e h => ((runAttempt_spec cfg att st).2.2.2.1 e h).1⟩

/-- Witness for download_part_deletion_on_exhaustion: a cancelled run with
an exhausted budget ends with the .part file gone, and a single cancelled
attempt on its own leaves the grown .part file in place. -/
theorem download_part_deletion_on_exhaustion_witness :
    (download
        { hasProg := false, hasFileCb := true, cancelFrom := some 0,
          retry_attempts := 0 }
        (fun _ => { httpOk := true, contentLength := some 10, chunks := [[3], [4]] })
        (dlInit (some [7]))).1.part = none
    ∧ ((runAttempt
        { hasProg := false, hasFileCb := true, cancelFrom := some 0,
          retry_attempts := 0 }
        { httpOk := true, contentLength := some 10, chunks := [[3], [4]] }
        (dlInit (some [7]))).1.part = (dlInit (some [7])).part
      ∨ ∃ suf, (runAttempt
        { hasProg := false, hasFileCb := true, cancelFrom := some 0,
          retry_attempts := 0 }
        { httpOk := true, contentLength := some 10, chunks := [[3], [4]] }
        (dlInit (some [7]))).1.part = some (((dlInit (some [7])).part.getD []) ++ suf)) :=
  ⟨(download_part_deletion_on_exhaustion
      { hasProg := false, hasFileCb := true, cancelFrom := some 0, retry_attempts := 0 }
      (fun _ => { httpOk := true, contentLength := some 10, chunks := [[3], [4]] })
      (dlInit (some [7]))).1 .cancelled (by decide),
   (download_part_deletion_on_exhaustion
      { hasProg := false, hasFileCb := true, cancelFrom := some 0, retry_attempts := 0 }
      (fun _ => { httpOk := true, contentLength := some 10, chunks := [[3], [4]] })
      (dlInit (some [7]))).2
      { httpOk := true, contentLength := some 10, chunks := [[3], [4]] }
      .cancelled (by decide)⟩

/-- Claim C5: every call to GoFile.download reads the size K of the
existing .part file (0 when absent) and issues its request with a Range
offset of exactly K (run.py lines 589-593): the first recorded event is
that request; no request of the whole run — retries included — ever asks
for an offset below K, so bytes [0, K) are never re-fetched; the file is
opened in append mode, and a successful run renames onto the final file a
byte string that still starts with the original K bytes. -/
theorem download_range_offset_resume (cfg : DlCfg) (atts : Nat → Att)
    (content : List Nat) :
    ((download cfg atts (dlInit (some content))).1.events).head?
        = some (DEv.request content.length)
    ∧ (∀ off, DEv.request off ∈ (download cfg atts (dlInit (some content))).1.events →
        content.length ≤ off)
    ∧ ((download cfg atts (dlInit (some content))).2 = .success →
        ∃ suf, (download cfg atts (dlInit (some content))).1.finalFile
          = some (content ++ suf))
    ∧ ((download cfg atts (dlInit none)).1.events).head? = some (DEv.request 0) := by
  unfold download
  obtain ⟨_, lHead, lRest⟩ :=
    downloadLoop_spec cfg atts cfg.retry_attempts 0 (dlInit (some content))
  obtain ⟨_, lHead0, _⟩ := downloadLoop_spec cfg atts cfg.retry_attempts 0 (dlInit none)
  have hpart : (dlInit (some content)).part = some (content ++ []) := by simp [dlInit]
  obtain ⟨lReq, lOk⟩ := lRest content [] hpart
  refine ⟨?_, ?_, lOk, ?_⟩
  · rw [lHead]
    simp [dlInit]
  · intro off h
    rcases lReq off h with h1 | h1
    · simp [dlInit] at h1
    · exact h1
  · rw [lHead0]
    simp [dlInit]

/-- Witness for download_range_offset_resume: a resumed two-byte download
on a three-byte .part file requests offset 3 and completes to a final
file extending the original bytes. -/
theorem download_range_offset_resume_witness :
    ((download
        { hasProg := false, hasFileCb := false, cancelFrom := none,
          retry_attempts := 1 }
        (fun _ => { httpOk := true, contentLength := some 2, chunks := [[7], [8]] })
        (dlInit (some [1, 2, 3]))).1.events).head? = some (DEv.request 3)
    ∧ ∃ suf, (download
        { hasProg := false, hasFileCb := false, cancelFrom := none,
          retry_attempts := 1 }
        (fun _ => { httpOk := true, contentLength := some 2, chunks := [[7], [8]] })
        (dlInit (some [1, 2, 3]))).1.finalFile = some ([1, 2, 3] ++ suf) :=
  ⟨(download_range_offset_resume _ _ [1, 2, 3]).1,
   (download_range_offset_resume _ _ [1, 2, 3]).2.2.1 (by decide)⟩

/-- Claim C3: run.py line 614 computes int(downloaded * 100 / total_size)
with no guard.  With no Content-Length header (total 0), no .part file,
one nonempty chunk and a progress callback, the computation raises
ZeroDivisionError instead of yielding a defined value; the exception is
swallowed by the retry handler and, with the budget exhausted, the
attempt ends in the permanent-failure path. -/
theorem download_division_by_zero :
    (download
        { hasProg := true, hasFileCb := false, cancelFrom := none,
          retry_attempts := 0 }
        (fun _ => { httpOk := true, contentLength := none, chunks := [[9]] })
        (dlInit none)).2 = .permanentFailure .divZero := by
  decide

/-- Claim C7, counterexample: a fetch whose payload has passwordStatus
"passwordRequired".  execute takes the early return of run.py lines
354-356: it logs and returns, producing the invalidPassword outcome and
no events (so no transfer calls), but it does not raise the
PasswordError exception that errors.py defines — run.py never uses that
class, so "signals PasswordError" fails. -/
theorem execute_password_no_exception_counterexample :
    (execResp
        { incremental := false, hasOverallCb := true, hasFileCb := true,
          hasNameCb := true, strip_emojis := false, cancelFrom := none,
          loadedTracker := [], mkdirFail := fun _ => false }
        ["out"] "cid1" true true (some "passwordRequired")
        (.folder "F" [("a", .cfile (some "x") (some "L"))] [])
        { fs := [], tracker := none, polls := 0, events := [] }).2.2
        = .invalidPassword
    ∧ (execResp
        { incremental := false, hasOverallCb := true, hasFileCb := true,
          hasNameCb := true, strip_emojis := false, cancelFrom := none,
          loadedTracker := [], mkdirFail := fun _ => false }
        ["out"] "cid1" true true (some "passwordRequired")
        (.folder "F" [("a", .cfile (some "x") (some "L"))] [])
        { fs := [], tracker := none, polls := 0, events := [] }).1.events = []
    ∧ ExecOutcome.invalidPassword ≠ ExecOutcome.raised .passwordError := by
  decide

/-- Claim C7, amended: on any fetched payload whose passwordStatus is not
"passwordOk", execute aborts the subtree before touching the node — zero
transfer calls, no events of any kind — but it only logs the invalid
password and returns; the invalidPassword outcome is an early return,
not a raised PasswordError. -/
theorem execute_password_aborts (cfg : ExecCfg) (dirP : List String) (cid : String)
    (pwd : Option String) (node : RNode) (st : ExecSt)
    (hpwd : ¬pwd.getD "passwordOk" = "passwordOk") :
    (execResp cfg dirP cid true true pwd node st).2.2 = .invalidPassword
    ∧ (execResp cfg dirP cid true true pwd node st).1.events = st.events := by
  unfold execResp
  simp [hpwd, trackerInit]
  split <;> simp

/-- Witness for execute_password_aborts at a concrete gated fetch. -/
theorem execute_password_aborts_witness :
    (execResp
        { incremental := true, hasOverallCb := false, hasFileCb := false,
          hasNameCb := false, strip_emojis := false, cancelFrom := none,
          loadedTracker := ["k"], mkdirFail := fun _ => false }
        ["d"] "c2" true true (some "passwordWrong") (.file "n" "l")
        { fs := [], tracker := none, polls := 0, events := [] }).2.2
        = .invalidPassword
    ∧ (execResp
        { incremental := true, hasOverallCb := false, hasFileCb := false,
          hasNameCb := false, strip_emojis := false, cancelFrom := none,
          loadedTracker := ["k"], mkdirFail := fun _ => false }
        ["d"] "c2" true true (some "passwordWrong") (.file "n" "l")
        { fs := [], tracker := none, polls := 0, events := [] }).1.events = [] :=
  execute_password_aborts _ _ _ _ _ _ (by decide)

/-! ### Helper lemmas for GoFile.execute -/

/-- One unfolding step of the child loop on a cons cell. -/
theorem execChildren_cons (cfg : ExecCfg) (fp : List String) (label : String)
    (total : Nat) (cid : String) (child : RChild)
    (rest : List (String × RChild)) (completed : Nat) (st : ExecSt) :
    execChildren cfg fp label total ((cid, child) :: rest) completed st
      = if (pollCancel cfg st).1 then ((pollCancel cfg st).2, [], completed)
        else if (processChild cfg fp cid child completed (pollCancel cfg st).2).2.2
            ∧ cfg.hasOverallCb ∧ 0 < total then
          ((execChildren cfg fp label total rest
              (processChild cfg fp cid child completed (pollCancel cfg st).2).2.1
              (xemit (processChild cfg fp cid child completed (pollCancel cfg st).2).1
                (.overall ((processChild cfg fp cid child completed
                    (pollCancel cfg st).2).2.1 * 100 / total) label))).1,
           ((processChild cfg fp cid child completed (pollCancel cfg st).2).2.1
               * 100 / total)
             :: (execChildren cfg fp label total rest
                  (processChild cfg fp cid child completed (pollCancel cfg st).2).2.1
                  (xemit (processChild cfg fp cid child completed (pollCancel cfg st).2).1
                    (.overall ((processChild cfg fp cid child completed
                        (pollCancel cfg st).2).2.1 * 100 / total) label))).2.1,
           (execChildren cfg fp label total rest
              (processChild cfg fp cid child completed (pollCancel cfg st).2).2.1
              (xemit (processChild cfg fp cid child completed (pollCancel cfg st).2).1
                (.overall ((processChild cfg fp cid child completed
                    (pollCancel cfg st).2).2.1 * 100 / total) label))).2.2)
        else execChildren cfg fp label total rest
          (processChild cfg fp cid child completed (pollCancel cfg st).2).2.1
          (processChild cfg fp cid child completed (pollCancel cfg st).2).1 := rfl

/-- The loop body always increments files_completed by exactly one
(run.py lines 442, 451, 472, 497, 501). -/
theorem processFileChild_completed (cfg : ExecCfg) (fp : List String) (cid : String)
    (n? l? : Option String) (completed : Nat) (st : ExecSt) :
    (processFileChild cfg fp cid n? l? completed st).2.1 = completed + 1 := by
  unfold processFileChild
  rcases st with ⟨fs, tr, polls, events⟩
  cases tr <;> cases l? <;> simp only [] <;> split_ifs <;> rfl

/-- Same fact for an arbitrary child. -/
theorem processChild_completed (cfg : ExecCfg) (fp : List String) (cid : String)
    (child : RChild) (completed : Nat) (st : ExecSt) :
    (processChild cfg fp cid child completed st).2.1 = completed + 1 := by
  cases child with
  | cfolder a b c sub => simp [processChild]
  | cfile n? l? => exact processFileChild_completed cfg fp cid n? l? completed st

/-- Prepending a smaller head keeps a non-decreasing chain. -/
theorem chain_cons_weaken {a b : Nat} {l : List Nat}
    (h : List.Chain' (fun x y => x ≤ y) (b :: l)) (hab : a ≤ b) :
    List.Chain' (fun x y => x ≤ y) (a :: l) := by
  cases l with
  | nil => simp
  | cons c cs =>
      rw [List.chain'_cons] at h ⊢
      exact ⟨le_trans hab h.1, h.2⟩

/-- The percents a folder's child loop reports are non-decreasing, each at
most 100, and never below the percent for the files already completed. -/
theorem execChildren_chain (cfg : ExecCfg) (fp : List String) (label : String)
    (total : Nat) (htot : 0 < total) :
    ∀ (kids : List (String × RChild)) (completed : Nat) (st : ExecSt),
      completed + kids.length ≤ total →
      List.Chain' (fun a b => a ≤ b)
        ((completed * 100 / total)
          :: (execChildren cfg fp label total kids completed st).2.1)
      ∧ ∀ x ∈ (execChildren cfg fp label total kids completed st).2.1, x ≤ 100 := by
  have hbound : ∀ c, c ≤ total → c * 100 / total ≤ 100 := by
    intro c hc
    calc c * 100 / total ≤ total * 100 / total :=
          Nat.div_le_div_right (Nat.mul_le_mul_right _ hc)
      _ = 100 := by rw [Nat.mul_comm, Nat.mul_div_cancel _ htot]
  intro kids
  induction kids with
  | nil =>
      intro completed st h
      exact ⟨by simp [execChildren], by simp [execChildren]⟩
  | cons k rest ih =>
      intro completed st h
      obtain ⟨cid, child⟩ := k
      rw [execChildren_cons]
      have hcomp := processChild_completed cfg fp cid child completed (pollCancel cfg st).2
      split_ifs with h1 h2
      · exact ⟨by simp, by simp⟩
      · rw [hcomp]
        have hlen : completed + 1 + rest.length ≤ total := by
          simp at h
          omega
        obtain ⟨ihChain, ihBound⟩ := ih (completed + 1)
          (xemit (processChild cfg fp cid child completed (pollCancel cfg st).2).1
            (.overall ((completed + 1) * 100 / total) label)) hlen
        constructor
        · rw [List.chain'_cons]
          exact ⟨Nat.div_le_div_right (Nat.mul_le_mul_right _ (Nat.le_succ _)), ihChain⟩
        · intro x hx
          rcases List.mem_cons.mp hx with rfl | hx
          · exact hbound _ (by omega)
          · exact ihBound x hx
      · rw [hcomp]
        have hlen : completed + 1 + rest.length ≤ total := by
          simp at h
          omega
        obtain ⟨ihChain, ihBound⟩ := ih (completed + 1)
          (processChild cfg fp cid child completed (pollCancel cfg st).2).1 hlen
        refine ⟨chain_cons_weaken ihChain ?_, ihBound⟩
        exact Nat.div_le_div_right (Nat.mul_le_mul_right _ (Nat.le_succ _))

/-- Appending the final 100 to a bounded non-decreasing percent list
yields a non-decreasing list ending in 100. -/
theorem chain_append_100 (own : List Nat)
    (h1 : List.Chain' (fun a b => a ≤ b) ((0 : Nat) :: own))
    (h2 : ∀ x ∈ own, x ≤ 100) :
    List.Chain' (fun a b => a ≤ b) (own ++ [100]) := by
  rw [List.chain'_append]
  refine ⟨h1.tail, by simp, ?_⟩
  intro x hx y hy
  simp at hy
  subst hy
  obtain ⟨hne, hxeq⟩ := List.mem_getLast?_eq_getLast hx
  subst hxeq
  exact h2 _ (List.getLast_mem hne)

/-- execChildren_chain specialized to a loop entered with zero completed
children. -/
theorem execChildren_chain0 (cfg : ExecCfg) (fp : List String) (label : String)
    (total : Nat) (htot : 0 < total) (kids : List (String × RChild)) (st : ExecSt)
    (h : kids.length ≤ total) :
    List.Chain' (fun a b => a ≤ b)
      ((0 : Nat) :: (execChildren cfg fp label total kids 0 st).2.1)
    ∧ ∀ x ∈ (execChildren cfg fp label total kids 0 st).2.1, x ≤ 100 := by
  have h2 := execChildren_chain cfg fp label total htot kids 0 st (by omega)
  simpa using h2

/-- Claim C9: within one folder's child loop, the percent values passed
to the overall-progress callback never decrease (the completed counter
only grows and the total is fixed), and the folder's sequence ends with
the final call at exactly 100, which is at least every earlier value. -/
theorem execute_overall_monotone (cfg : ExecCfg) (dirP : List String) (cid : String)
    (pwd : Option String) (fname : String)
    (children contents : List (String × RChild)) (st : ExecSt)
    (hcb : cfg.hasOverallCb = true)
    (hpwd : pwd.getD "passwordOk" = "passwordOk")
    (hmk : ∀ p, cfg.mkdirFail p = false) :
    List.Chain' (fun a b => a ≤ b)
      ((execResp cfg dirP cid true true pwd
          (.folder fname children contents) st).2.1)
    ∧ ((execResp cfg dirP cid true true pwd
          (.folder fname children contents) st).2.1).getLast? = some 100 := by
  unfold execResp
  simp [hpwd, mkdirStep, hmk, finishFolder, hcb]
  cases children with
  | nil =>
      cases contents with
      | nil => exact ⟨by simp, by simp⟩
      | cons k ks =>
          refine ⟨chain_append_100 _
            (execChildren_chain0 cfg _ fname _ (by simp) (k :: ks) _ (by simp)).1
            (execChildren_chain0 cfg _ fname _ (by simp) (k :: ks) _ (by simp)).2,
            by simp⟩
  | cons k ks =>
      refine ⟨chain_append_100 _
        (execChildren_chain0 cfg _ fname _ (by simp) (k :: ks) _ (by simp)).1
        (execChildren_chain0 cfg _ fname _ (by simp) (k :: ks) _ (by simp)).2,
        by simp⟩

/-- Witness for execute_overall_monotone at a concrete two-file folder. -/
theorem execute_overall_monotone_witness :
    List.Chain' (fun a b => a ≤ b)
      ((execResp
          { incremental := false, hasOverallCb := true, hasFileCb := false,
            hasNameCb := false, strip_emojis := false, cancelFrom := none,
            loadedTracker := [], mkdirFail := fun _ => false }
          ["out"] "cidm" true true none
          (.folder "M" [("g1", .cfile (some "x") (some "L1")),
                        ("g2", .cfile (some "y") none)] [])
          { fs := [], tracker := none, polls := 0, events := [] }).2.1)
    ∧ ((execResp
          { incremental := false, hasOverallCb := true, hasFileCb := false,
            hasNameCb := false, strip_emojis := false, cancelFrom := none,
            loadedTracker := [], mkdirFail := fun _ => false }
          ["out"] "cidm" true true none
          (.folder "M" [("g1", .cfile (some "x") (some "L1")),
                        ("g2", .cfile (some "y") none)] [])
          { fs := [], tracker := none, polls := 0, events := [] }).2.1).getLast?
      = some 100 :=
  execute_overall_monotone _ _ _ _ _ _ _ _ rfl (by decide) (fun _ => rfl)

/-- Marking one key leaves the membership of every other key unchanged. -/
theorem mark_contains_other (T : List String) (cid fn k : String)
    (hk : ¬k = trackerKey cid fn) :
    (mark_downloaded T cid fn).contains k = T.contains k := by
  unfold mark_downloaded
  split
  · rfl
  · simp [List.contains_cons, hk]

/-- The incremental-skip branch (run.py lines 449-455): the child is not
followed by a per-child overall update, and the tracker is untouched. -/
theorem processFileChild_skip (cfg : ExecCfg) (fp : List String) (cid : String)
    (n? l? : Option String) (completed : Nat) (st : ExecSt) (T : List String)
    (hT : st.tracker = some T)
    (hsk : (cfg.incremental && is_downloaded T cid (n?.getD "unknown")) = true) :
    (processFileChild cfg fp cid n? l? completed st).2.2 = false
    ∧ (processFileChild cfg fp cid n? l? completed st).1.tracker = some T := by
  unfold processFileChild
  rcases st with ⟨fs, tr, polls, events⟩
  have htr : tr = some T := hT
  subst htr
  simp only []
  rw [if_pos hsk]
  exact ⟨rfl, by split <;> rfl⟩

/-- The missing-link branch (run.py lines 470-473): the child is counted
but nothing else happens. -/
theorem processFileChild_nolink (cfg : ExecCfg) (fp : List String) (cid : String)
    (n? : Option String) (completed : Nat) (st : ExecSt) (T : List String)
    (hT : st.tracker = some T)
    (hsk : (cfg.incremental && is_downloaded T cid (n?.getD "unknown")) = false) :
    processFileChild cfg fp cid n? none completed st = (st, completed + 1, false) := by
  unfold processFileChild
  rcases st with ⟨fs, tr, polls, events⟩
  have htr : tr = some T := hT
  subst htr
  simp only []
  rw [if_neg (by simp [hsk])]

/-- The transfer branch (run.py lines 475-497): the child reaches the
per-child update, and in incremental mode its key is marked. -/
theorem processFileChild_download (cfg : ExecCfg) (fp : List String) (cid : String)
    (n? : Option String) (link : String) (completed : Nat) (st : ExecSt)
    (T : List String)
    (hT : st.tracker = some T) (hstrip : cfg.strip_emojis = false)
    (hsk : (cfg.incremental && is_downloaded T cid (n?.getD "unknown")) = false) :
    (processFileChild cfg fp cid n? (some link) completed st).2.2 = true
    ∧ (processFileChild cfg fp cid n? (some link) completed st).1.tracker
      = some (if cfg.incremental then mark_downloaded T cid (n?.getD "unknown") else T) := by
  unfold processFileChild
  rcases st with ⟨fs, tr, polls, events⟩
  have htr : tr = some T := hT
  subst htr
  simp only []
  rw [if_neg (by simp [hsk]), hstrip]
  constructor
  · split_ifs <;> rfl
  · simp only [resolveName, xemit]
    split_ifs <;> simp_all

/-- How many per-child overall-progress invocations a run of the child
loop makes: exactly one for each child on the normal path — judged
against the tracker contents T0 loaded at the start — none for skipped
or linkless children, plus none for the loop itself.  Requires the keys
of the file children to be distinct (dict keys are unique in the source;
colliding composite keys could flip later skip decisions). -/
theorem execChildren_count (cfg : ExecCfg) (fp : List String) (label : String)
    (total : Nat) (T0 : List String)
    (hcb : cfg.hasOverallCb = true) (hcancel : cfg.cancelFrom = none)
    (hstrip : cfg.strip_emojis = false) (htot : 0 < total) :
    ∀ (kids : List (String × RChild)) (completed : Nat) (st : ExecSt) (T : List String),
      st.tracker = some T →
      (∀ p ∈ kids, isCfile p.2 = true) →
      (kids.filterMap (fun p => fileKey p.1 p.2)).Nodup →
      (∀ k ∈ kids.filterMap (fun p => fileKey p.1 p.2),
          T.contains k = T0.contains k) →
      (execChildren cfg fp label total kids completed st).2.1.length
        = kids.countP (normalChild cfg.incremental T0) := by
  intro kids
  induction kids with
  | nil =>
      intro completed st T hT hfiles hnodup hinv
      simp [execChildren]
  | cons k rest ih =>
      intro completed st T hT hfiles hnodup hinv
      obtain ⟨cid, child⟩ := k
      have hcf : isCfile child = true := hfiles (cid, child) (by simp)
      cases child with
      | cfolder a b c d => simp [isCfile] at hcf
      | cfile n? l? =>
          rw [execChildren_cons]
          have hpoll : (pollCancel cfg st).1 = false := by
            simp [pollCancel, hcancel, cancelSet]
          rw [hpoll]
          simp only [Bool.false_eq_true, if_false]
          have hT2 : (pollCancel cfg st).2.tracker = some T := hT
          have hkeyc : fileKey cid (RChild.cfile n? l?)
              = some (trackerKey cid (n?.getD "unknown")) := rfl
          have hkeys : ((cid, RChild.cfile n? l?) :: rest).filterMap
                (fun p => fileKey p.1 p.2)
              = trackerKey cid (n?.getD "unknown")
                :: rest.filterMap (fun p => fileKey p.1 p.2) := by
            simp [fileKey]
          rw [hkeys] at hnodup hinv
          have hkey : T.contains (trackerKey cid (n?.getD "unknown"))
              = T0.contains (trackerKey cid (n?.getD "unknown")) :=
            hinv _ (by simp)
          have hdl : is_downloaded T cid (n?.getD "unknown")
              = is_downloaded T0 cid (n?.getD "unknown") := by
            unfold is_downloaded
            rw [hkey]
          have hrestfiles : ∀ p ∈ rest, isCfile p.2 = true :=
            fun p hp => hfiles p (by simp [hp])
          have hrestnodup : (rest.filterMap (fun p => fileKey p.1 p.2)).Nodup :=
            (List.nodup_cons.mp hnodup).2
          have hnotmem : trackerKey cid (n?.getD "unknown")
              ∉ rest.filterMap (fun p => fileKey p.1 p.2) :=
            (List.nodup_cons.mp hnodup).1
          have hrestinv : ∀ k2 ∈ rest.filterMap (fun p => fileKey p.1 p.2),
              T.contains k2 = T0.contains k2 :=
            fun k2 hk2 => hinv k2 (by simp [hk2])
          by_cases hsk : (cfg.incremental && is_downloaded T cid (n?.getD "unknown")) = true
          · -- incremental skip: no per-child update, no mark
            obtain ⟨hp22, hptr⟩ := processFileChild_skip cfg fp cid n? l? completed
              (pollCancel cfg st).2 T hT2 hsk
            have hp22c : (processChild cfg fp cid (RChild.cfile n? l?) completed
                (pollCancel cfg st).2).2.2 = false := hp22
            have hptrc : (processChild cfg fp cid (RChild.cfile n? l?) completed
                (pollCancel cfg st).2).1.tracker = some T := hptr
            rw [if_neg (by simp [hp22c])]
            rw [ih _ _ T hptrc hrestfiles hrestnodup hrestinv]
            have hnorm : normalChild cfg.incremental T0 (cid, RChild.cfile n? l?) = false := by
              simp only [normalChild]
              rw [if_pos]
              rw [hdl] at hsk
              simp at hsk
              exact ⟨hsk.1, hsk.2⟩
            rw [List.countP_cons, hnorm]
            simp
          · cases l? with
            | none =>
                have heq := processFileChild_nolink cfg fp cid n? completed
                  (pollCancel cfg st).2 T hT2 (by simpa using hsk)
                have heqc : processChild cfg fp cid (RChild.cfile n? none) completed
                    (pollCancel cfg st).2
                    = ((pollCancel cfg st).2, completed + 1, false) := heq
                rw [heqc]
                rw [if_neg (by simp)]
                rw [ih _ _ T hT2 hrestfiles hrestnodup hrestinv]
                have hnorm : normalChild cfg.incremental T0
                    (cid, RChild.cfile n? none) = false := by
                  simp only [normalChild]
                  split_ifs <;> simp
                rw [List.countP_cons, hnorm]
                simp
            | some link =>
                obtain ⟨hp22, hptr⟩ := processFileChild_download cfg fp cid n? link
                  completed (pollCancel cfg st).2 T hT2 hstrip (by simpa using hsk)
                have hp22c : (processChild cfg fp cid (RChild.cfile n? (some link))
                    completed (pollCancel cfg st).2).2.2 = true := hp22
                have hptrc : (processChild cfg fp cid (RChild.cfile n? (some link))
                    completed (pollCancel cfg st).2).1.tracker
                    = some (if cfg.incremental then
                        mark_downloaded T cid (n?.getD "unknown") else T) := hptr
                rw [if_pos ⟨by simp [hp22c], by simp [hcb], htot⟩]
                have htr2 : (xemit (processChild cfg fp cid (RChild.cfile n? (some link))
                      completed (pollCancel cfg st).2).1
                      (.overall ((processChild cfg fp cid (RChild.cfile n? (some link))
                        completed (pollCancel cfg st).2).2.1 * 100 / total) label)).tracker
                    = some (if cfg.incremental then
                        mark_downloaded T cid (n?.getD "unknown") else T) := hptrc
                have hinv2 : ∀ k2 ∈ rest.filterMap (fun p => fileKey p.1 p.2),
                    (if cfg.incremental then
                        mark_downloaded T cid (n?.getD "unknown") else T).contains k2
                      = T0.contains k2 := by
                  intro k2 hk2
                  have hne : ¬k2 = trackerKey cid (n?.getD "unknown") := by
                    intro hcontra
                    exact hnotmem (hcontra ▸ hk2)
                  split_ifs
                  · rw [mark_contains_other T cid (n?.getD "unknown") k2 hne]
                    exact hrestinv k2 hk2
                  · exact hrestinv k2 hk2
                have hlen := ih ((processChild cfg fp cid (RChild.cfile n? (some link))
                    completed (pollCancel cfg st).2).2.1) _ _ htr2 hrestfiles
                  hrestnodup hinv2
                simp only [List.length_cons]
                rw [hlen]
                have hnorm : normalChild cfg.incremental T0
                    (cid, RChild.cfile n? (some link)) = true := by
                  simp only [normalChild]
                  rw [if_neg]
                  · simp
                  · rw [hdl] at hsk
                    simp at hsk
                    intro ⟨ha, hb⟩
                    exact absurd hb (by simpa using hsk ha)
                rw [List.countP_cons, hnorm]
                simp [Nat.add_comm]

/-- folderPreamble only touches events and produces the path: tracker
unchanged. -/
theorem folderPreamble_tracker (cfg : ExecCfg) (dirP : List String) (cid : String)
    (name : String) (st : ExecSt) :
    (folderPreamble cfg dirP cid name st).1.tracker = st.tracker := by
  unfold folderPreamble
  split_ifs <;> rfl

/-- In incremental mode with no tracker yet, execute loads the persisted
set (run.py lines 327-329). -/
theorem trackerInit_loaded (cfg : ExecCfg) (st : ExecSt)
    (hincr : cfg.incremental = true) (htr : st.tracker = none) :
    (trackerInit cfg st).tracker = some cfg.loadedTracker := by
  unfold trackerInit
  rw [if_pos ⟨hincr, by simp [htr]⟩]

/-- Claim C2, counterexample: a folder with N = 1 children whose single
file child is already tracked in incremental mode.  The skip path of
run.py lines 449-455 ends in continue, jumping over the per-child
overall-progress update of lines 504-508, so the callback fires only
once (the final 100) — fewer than the claimed N + 1 = 2 times. -/
theorem execute_overall_count_counterexample :
    ((execResp
        { incremental := true, hasOverallCb := true, hasFileCb := true,
          hasNameCb := false, strip_emojis := false, cancelFrom := none,
          loadedTracker := ["f1:a.txt"], mkdirFail := fun _ => false }
        ["out"] "cidc" true true none
        (.folder "D" [("f1", .cfile (some "a.txt") (some "L"))] [])
        { fs := [], tracker := none, polls := 0, events := [] }).2.1).length
      < 1 + 1 := by
  decide

/-- Claim C2, amended: with an overall-progress callback supplied and no
cancellation, the overall-progress callback is invoked once after each
child that takes the normal path — children skipped by the incremental
check and file children without a download link are counted completed
but continue past the per-child update — plus exactly one final
invocation after the loop.  Stated for a folder of file children with
distinct tracker keys, in incremental mode, judged against the loaded
tracker set. -/
theorem execute_overall_invocations (cfg : ExecCfg) (dirP : List String)
    (cid : String) (fname : String) (k0 : String × RChild)
    (ks contents : List (String × RChild)) (st : ExecSt)
    (hcb : cfg.hasOverallCb = true)
    (hcancel : cfg.cancelFrom = none)
    (hstrip : cfg.strip_emojis = false)
    (hincr : cfg.incremental = true)
    (htr : st.tracker = none)
    (hmk : ∀ p, cfg.mkdirFail p = false)
    (hfiles : ∀ p ∈ (k0 :: ks), isCfile p.2 = true)
    (hkeys : ((k0 :: ks).filterMap (fun p => fileKey p.1 p.2)).Nodup) :
    ((execResp cfg dirP cid true true none
        (.folder fname (k0 :: ks) contents) st).2.1).length
      = (k0 :: ks).countP (normalChild cfg.incremental cfg.loadedTracker) + 1 := by
  unfold execResp
  simp only [mkdirStep, hmk]
  simp [finishFolder, hcb]
  refine Eq.trans ?_ rfl
  rw [execChildren_count cfg _ fname _ cfg.loadedTracker hcb hcancel hstrip (by simp)
    (k0 :: ks) 0 _ cfg.loadedTracker
    (by rw [folderPreamble_tracker, trackerInit_loaded cfg st hincr htr])
    hfiles hkeys (fun k2 _ => rfl)]

/-- Witness for execute_overall_invocations: three file children — one
tracked (skipped), one downloadable, one with no link — give exactly
1 + 1 = 2 overall-progress invocations. -/
theorem execute_overall_invocations_witness :
    ((execResp
        { incremental := true, hasOverallCb := true, hasFileCb := true,
          hasNameCb := false, strip_emojis := false, cancelFrom := none,
          loadedTracker := ["f1:a.txt"], mkdirFail := fun _ => false }
        ["out"] "cidw2" true true none
        (.folder "W" [("f1", .cfile (some "a.txt") (some "L")),
                      ("g2", .cfile (some "y") (some "L2")),
                      ("g3", .cfile (some "z") none)] [])
        { fs := [], tracker := none, polls := 0, events := [] }).2.1).length
      = ([("f1", RChild.cfile (some "a.txt") (some "L")),
          ("g2", RChild.cfile (some "y") (some "L2")),
          ("g3", RChild.cfile (some "z") none)].countP
            (normalChild true ["f1:a.txt"])) + 1 :=
  execute_overall_invocations _ _ _ _ _ _ _ _ rfl rfl rfl rfl rfl (fun _ => rfl)
    (by decide) (by decide)

/-- Claim C4: for every folder node processed with an overall-progress
callback supplied — zero children included, any cancellation schedule
included — the last overall-progress value this frame reports is exactly
100 (run.py lines 398-404 and 510-513), provided the frame reached its
loop (fetch ok, password ok, directory creation did not raise). -/
theorem execute_final_overall_100 (cfg : ExecCfg) (dirP : List String) (cid : String)
    (pwd : Option String) (name : String) (children contents : List (String × RChild))
    (st : ExecSt)
    (hcb : cfg.hasOverallCb = true)
    (hpwd : pwd.getD "passwordOk" = "passwordOk")
    (hmk : ∀ p, cfg.mkdirFail p = false) :
    ((execResp cfg dirP cid true true pwd
        (.folder name children contents) st).2.1).getLast? = some 100 := by
  unfold execResp
  simp [hpwd, mkdirStep, hmk, finishFolder, hcb]
  cases children with
  | nil =>
      cases contents with
      | nil => simp
      | cons k ks => simp
  | cons k ks => simp

/-- Witness for execute_final_overall_100: a two-child folder with a
cancellation schedule that cuts the loop after the first child. -/
theorem execute_final_overall_100_witness :
    ((execResp
        { incremental := false, hasOverallCb := true, hasFileCb := true,
          hasNameCb := false, strip_emojis := false, cancelFrom := some 1,
          loadedTracker := [], mkdirFail := fun _ => false }
        ["out"] "cidw" true true none
        (.folder "D" [("g1", .cfile (some "x") (some "L1")),
                      ("g2", .cfile (some "y") (some "L2"))] [])
        { fs := [], tracker := none, polls := 0, events := [] }).2.1).getLast?
      = some 100 :=
  execute_final_overall_100 _ _ _ _ _ _ _ _ rfl (by decide) (fun _ => rfl)

/-- Claim C6: in incremental mode, a file child whose (fileId, fileName)
pair is recorded in the tracker is skipped (run.py lines 449-455): the
loop body appends exactly one event — the per-file progress callback at
100 — so the transfer path is never invoked for it, and files_completed
is still incremented. -/
theorem execute_incremental_skip (cfg : ExecCfg) (folder_path : List String)
    (child_id fname : String) (link? : Option String) (completed : Nat) (st : ExecSt)
    (T : List String)
    (hincr : cfg.incremental = true)
    (hT : st.tracker = some T)
    (hcb : cfg.hasFileCb = true)
    (hdl : is_downloaded T child_id fname = true) :
    processFileChild cfg folder_path child_id (some fname) link? completed st
      = ({ st with events := st.events ++
            [.fileProg (folder_path ++ [sanitize_filename fname]) 100] },
         completed + 1, false) := by
  unfold processFileChild
  simp [hT, hdl, hincr, hcb, xemit]

/-- Witness for execute_incremental_skip at a concrete tracked file. -/
theorem execute_incremental_skip_witness :
    processFileChild
        { incremental := true, hasOverallCb := true, hasFileCb := true,
          hasNameCb := false, strip_emojis := false, cancelFrom := none,
          loadedTracker := ["f1:a.txt"], mkdirFail := fun _ => false }
        ["d"] "f1" (some "a.txt") (some "L") 0
        { fs := [], tracker := some ["f1:a.txt"], polls := 0, events := [] }
      = ({ fs := [], tracker := some ["f1:a.txt"], polls := 0,
           events := [] ++ [.fileProg (["d"] ++ [sanitize_filename "a.txt"]) 100] },
         0 + 1, false) :=
  execute_incremental_skip _ _ _ _ _ _ _ _ rfl rfl rfl (by decide)

end GofileDl
